import Mathlib

/-!
Shallow embedding of the food-supply-chain ledger simulator
(`src/indexu.js`, with its two sibling copies `src/unnamed/part_000` and
`src/unnamed/part_001`).

The program keeps a global array `simulatedBlockchain` and a counter
`nextTransactionId`, and defines three operations:
  * `addTransaction`        — appends an event, assigning the next id;
  * `processFairPricing`    — the Fair Pricing contract (reads the ledger);
  * `verifyFoodConditions`  — the Conditions contract (writes the
    `violationDetected` flag onto the evaluated event in `indexu.js` and
    `part_001`; the `part_000` copy never writes it).

JavaScript numbers are modelled as rationals, the dynamically-typed
`violationDetected` field as an optional JavaScript value (`Jval`), and the
two global mutable variables as an explicit `ChainState` threaded through
the operations.  Fields that every claim assumes present and well-typed
(`quantityKg`, the threshold quadruple, the two booleans, ...) are plain
fields of `Details`; fields whose absence matters to a claim
(`spoilageRate`, `violationDetected`) are `Option`s.
-/

/-- Dynamically-typed JavaScript value, enough to distinguish the boolean
`true` from other truthy values (`tx.details.violationDetected` is untyped
in the source). -/
inductive Jval : Type where
  | jbool : Bool → Jval
  | jnum : Int → Jval
  | jstr : String → Jval
deriving DecidableEq, Repr

/-- JavaScript truthiness of a `Jval` (`part_000` line 75 tests the flag
with plain truthiness instead of `=== true`). -/
def truthy : Jval → Bool
  | Jval.jbool b => b
  | Jval.jnum n => decide (n ≠ 0)
  | Jval.jstr s => decide (s ≠ "")

/-- The `thresholds` quadruple of a condition-bearing event. -/
structure Thresholds where
  minTemp : ℚ
  maxTemp : ℚ
  minHumidity : ℚ
  maxHumidity : ℚ
deriving DecidableEq, Repr

/-- The `details` payload of an event.  The source stores an untyped object;
the fields below are the ones the two contracts read.  `spoilageRate` and
`violationDetected` are optional because their absence changes behaviour
(destructuring default `0.15`; flag absent before evaluation). -/
structure Details where
  qualityVerified : Bool := false
  deliveryConfirmed : Bool := false
  quantityKg : ℚ := 0
  agreedPricePerKg : ℚ := 0
  spoilageRate : Option ℚ := none
  currentTempCelsius : ℚ := 0
  currentHumidityPercent : ℚ := 0
  thresholds : Thresholds := { minTemp := 0, maxTemp := 0, minHumidity := 0, maxHumidity := 0 }
  violationDetected : Option Jval := none
deriving DecidableEq, Repr

/-- A stored transaction (ledger entry).  `details` is optional because the
pricing filter guards on `tx.details &&` before reading the flag. -/
structure Event where
  id : ℕ
  actorId : String := ""
  productId : String := ""
  timestamp : String := ""
  location : String := ""
  eventType : String := ""
  details : Option Details := none
deriving DecidableEq, Repr

/-- Caller-supplied record for `addTransaction` (`id` and `timestamp` are
assigned by the ledger). -/
structure TransactionData where
  actorId : String := ""
  productId : String := ""
  location : String := ""
  eventType : String := ""
  details : Option Details := none
deriving DecidableEq, Repr

/-- The two global mutable variables of the script:
`let simulatedBlockchain = []` and `let nextTransactionId = 1001`. -/
structure ChainState where
  simulatedBlockchain : List Event := []
  nextTransactionId : ℕ := 1001
deriving DecidableEq, Repr

/-- Initial global state of the script. -/
def initialState : ChainState := {}

/-- Embeds `addTransaction` (`indexu.js` lines 48-57): builds the new event
with the next id and the capture-time timestamp (passed here as `ts`),
pushes it at the tail, increments the counter, and returns the stored
event together with the new global state. -/
def addTransaction (st : ChainState) (transactionData : TransactionData) (ts : String) :
    Event × ChainState :=
  let newTransaction : Event :=
    { id := st.nextTransactionId
      actorId := transactionData.actorId
      productId := transactionData.productId
      timestamp := ts
      location := transactionData.location
      eventType := transactionData.eventType
      details := transactionData.details }
  (newTransaction,
    { simulatedBlockchain := st.simulatedBlockchain ++ [newTransaction]
      nextTransactionId := st.nextTransactionId + 1 })

/-- The predicate of the violation filter in `indexu.js` lines 71-75 (and
`part_001` lines 71-76): `tx.details && tx.details.violationDetected === true`. -/
def violationFlagIsTrue (e : Event) : Bool :=
  match e.details with
  | some d => decide (d.violationDetected = some (Jval.jbool true))
  | none => false

/-- The predicate of the violation filter in `part_000` lines 72-76:
`tx.details && tx.details.violationDetected` (truthy check). -/
def violationFlagTruthy (e : Event) : Bool :=
  match e.details with
  | some d =>
    match d.violationDetected with
    | some v => truthy v
    | none => false
  | none => false

/-- The ledger lookup the spec calls `findByProductWithViolation`: the
inline `simulatedBlockchain.filter(...)` of `indexu.js` lines 71-75
(strict `=== true` comparison). -/
def findByProductWithViolation (chain : List Event) (productId : String) : List Event :=
  chain.filter fun tx => tx.productId == productId && violationFlagIsTrue tx

/-- The same lookup as written in `part_000` lines 72-76 (truthy check on
the flag instead of strict equality with `true`). -/
def findByProductWithViolationP0 (chain : List Event) (productId : String) : List Event :=
  chain.filter fun tx => tx.productId == productId && violationFlagTruthy tx

/-- Spoilage computation of `processFairPricing` (`indexu.js` lines 77-80):
`spoilage = recentViolations.length > 0 ? spoilageRate * quantityKg : 0`,
with `spoilageRate` defaulting to `0.15` when absent (line 69). -/
def spoilage (chain : List Event) (productId : String) (d : Details) : ℚ :=
  if 0 < (findByProductWithViolation chain productId).length then
    d.spoilageRate.getD (0.15 : ℚ) * d.quantityKg
  else 0

/-- Result record of the Fair Pricing contract. -/
structure PriceResult where
  status : String
  amount : ℚ
deriving DecidableEq, Repr

/-- Embeds `processFairPricing` (`indexu.js` lines 68-97).  The function
only reads the global state, so it returns it unchanged alongside the
result.  The `none` branch of `details` is unreachable for the
PAYMENT_REQUEST events all claims quantify over. -/
def processFairPricing (st : ChainState) (paymentTransaction : Event) :
    PriceResult × ChainState :=
  match paymentTransaction.details with
  | some d =>
    let sp := spoilage st.simulatedBlockchain paymentTransaction.productId d
    let res :=
      if d.qualityVerified && d.deliveryConfirmed then
        { status := "Payment Released", amount := (d.quantityKg - sp) * d.agreedPricePerKg }
      else if !d.qualityVerified then
        { status := "Quality Pending", amount := 0 }
      else if !d.deliveryConfirmed then
        { status := "Delivery Pending", amount := 0 }
      else
        { status := "Pending", amount := 0 }
    (res, st)
  | none => ({ status := "", amount := 0 }, st)

/-- Result record of the Conditions contract. -/
structure CondResult where
  status : String
  violations : List String
deriving DecidableEq, Repr

/-- The temperature violation message pushed at `indexu.js` line 117. -/
def tempMsg (d : Details) : String :=
  "Temperature violation: " ++ toString d.currentTempCelsius ++ "°C (expected " ++
    toString d.thresholds.minTemp ++ "-" ++ toString d.thresholds.maxTemp ++ "°C)"

/-- The humidity violation message pushed at `indexu.js` line 121. -/
def humMsg (d : Details) : String :=
  "Humidity violation: " ++ toString d.currentHumidityPercent ++ "% (expected " ++
    toString d.thresholds.minHumidity ++ "-" ++ toString d.thresholds.maxHumidity ++ "%)"

/-- Pure part of `verifyFoodConditions` (`indexu.js` lines 112-122 —
identical in all three copies): `status` starts as `Conditions Met`, each
of the two sequential `if`s overwrites it with `Condition Violation` and
pushes its message; temperature is checked first, humidity second. -/
def verifyFoodConditionsPure (d : Details) : CondResult :=
  let t := d.thresholds
  let status0 := "Conditions Met"
  let violations0 : List String := []
  let afterTemp : String × List String :=
    if d.currentTempCelsius < t.minTemp ∨ d.currentTempCelsius > t.maxTemp then
      ("Condition Violation", violations0 ++ [tempMsg d])
    else (status0, violations0)
  let afterHum : String × List String :=
    if d.currentHumidityPercent < t.minHumidity ∨ d.currentHumidityPercent > t.maxHumidity then
      ("Condition Violation", afterTemp.2 ++ [humMsg d])
    else afterTemp
  { status := afterHum.1, violations := afterHum.2 }

/-- The boolean written onto the event at `indexu.js` line 125:
`violations.length > 0`. -/
def violationFlag (r : CondResult) : Bool := decide (0 < r.violations.length)

/-- In-place mutation `conditionTransaction.details.violationDetected = b`
seen through the ledger: the evaluated transaction is the object stored in
`simulatedBlockchain`, identified by its id. -/
def markViolation (chain : List Event) (txId : ℕ) (b : Bool) : List Event :=
  chain.map fun e =>
    if e.id = txId then
      { e with details := e.details.map fun d => { d with violationDetected := some (Jval.jbool b) } }
    else e

/-- Embeds `verifyFoodConditions` of `indexu.js` (lines 108-149): computes
the result and writes `violationDetected = (violations.length > 0)` onto
the evaluated event (line 125), which lives in the ledger. -/
def verifyFoodConditions (st : ChainState) (conditionTransaction : Event) :
    CondResult × ChainState :=
  match conditionTransaction.details with
  | some d =>
    let r := verifyFoodConditionsPure d
    (r, { st with
            simulatedBlockchain :=
              markViolation st.simulatedBlockchain conditionTransaction.id (violationFlag r) })
  | none => ({ status := "", violations := [] }, st)

/-- Embeds `verifyFoodConditions` of `part_000` (lines 110-133): same pure
computation, but the copy contains no assignment to `violationDetected`,
so the global state is left untouched. -/
def verifyFoodConditionsP0 (st : ChainState) (conditionTransaction : Event) :
    CondResult × ChainState :=
  match conditionTransaction.details with
  | some d => (verifyFoodConditionsPure d, st)
  | none => ({ status := "", violations := [] }, st)

/-- Embeds `verifyFoodConditions` of `part_001` (lines 109-134): same pure
computation; the flag is written as `true` in the violation branch and
`false` in the other branch. -/
def verifyFoodConditionsP1 (st : ChainState) (conditionTransaction : Event) :
    CondResult × ChainState :=
  match conditionTransaction.details with
  | some d =>
    let r := verifyFoodConditionsPure d
    if 0 < r.violations.length then
      (r, { st with
              simulatedBlockchain :=
                markViolation st.simulatedBlockchain conditionTransaction.id true })
    else
      (r, { st with
              simulatedBlockchain :=
                markViolation st.simulatedBlockchain conditionTransaction.id false })
  | none => ({ status := "", violations := [] }, st)

/-- Folds a finite sequence of `addTransaction` calls over a state,
returning the final state and the list of assigned ids in call order
(models the driver loop's repeated appends). -/
def appendAll (st : ChainState) : List (TransactionData × String) → ChainState × List ℕ
  | [] => (st, [])
  | p :: rest =>
    let first := addTransaction st p.1 p.2
    let remaining := appendAll first.2 rest
    (remaining.1, first.1.id :: remaining.2)

/-- The evaluated event as it appears in the ledger after the `indexu.js`
Conditions contract ran on it: same fields, flag set to `b`. -/
def withFlag (tx : Event) (d : Details) (b : Bool) : Event :=
  { tx with details := some { d with violationDetected := some (Jval.jbool b) } }

/-- States reachable from a given state by appends and by condition
evaluations of events other than the one with id `i` (the "no intervening
re-evaluation" side condition of the persistence claim). -/
inductive ReachAvoiding (i : ℕ) : ChainState → ChainState → Prop where
  | refl (s : ChainState) : ReachAvoiding i s s
  | append (s t : ChainState) (dta : TransactionData) (ts : String) :
      ReachAvoiding i s t → ReachAvoiding i s (addTransaction t dta ts).2
  | evalCond (s t : ChainState) (tx : Event) :
      tx.id ≠ i → ReachAvoiding i s t → ReachAvoiding i s (verifyFoodConditions t tx).2

-- Concrete sample values (drawn from the repository's fixture data),
-- used by counterexamples and witnesses.

/-- Thresholds of the second TOMATO_BATCH_001 TRANSPORT fixture
(`indexu.js` line 231). -/
def sampleThresholds : Thresholds :=
  { minTemp := 20, maxTemp := 28, minHumidity := 40, maxHumidity := 60 }

/-- Condition details of that fixture: temperature 30 violates, humidity
50 does not. -/
def sampleCondDetails : Details :=
  { currentTempCelsius := 30, currentHumidityPercent := 50, thresholds := sampleThresholds }

/-- The fixture as a stored, not yet evaluated, event. -/
def sampleCondTx : Event :=
  { id := 1001, actorId := "logistics_NGR_002", productId := "TOMATO_BATCH_001",
    timestamp := "2025-05-23T09:00:00Z", location := "En route to Abuja Retailer",
    eventType := "TRANSPORT", details := some sampleCondDetails }

/-- Ledger holding just that event. -/
def sampleSt : ChainState :=
  { simulatedBlockchain := [sampleCondTx], nextTransactionId := 1002 }

/-- Details of the TOMATO_BATCH_001 PAYMENT_REQUEST fixture
(`indexu.js` lines 254-261). -/
def payDetails : Details :=
  { qualityVerified := true, deliveryConfirmed := true, quantityKg := 500,
    agreedPricePerKg := 350, spoilageRate := some (0.15 : ℚ) }

/-- That payment request as an event. -/
def payTx : Event :=
  { id := 1008, actorId := "farmer_001", productId := "TOMATO_BATCH_001",
    eventType := "PAYMENT_REQUEST", details := some payDetails }

/-- A stored event already flagged `violationDetected = true` for
TOMATO_BATCH_001. -/
def flaggedTx : Event :=
  { id := 1005, productId := "TOMATO_BATCH_001", eventType := "TRANSPORT",
    details := some { sampleCondDetails with violationDetected := some (Jval.jbool true) } }

/-- Ledger with one flagged violation for TOMATO_BATCH_001. -/
def stWithViolation : ChainState :=
  { simulatedBlockchain := [flaggedTx], nextTransactionId := 1006 }

/-- Empty ledger (no flagged violation for any product). -/
def stNoViolation : ChainState := initialState

/-- A stored event whose violationDetected flag is the number 1: present
and truthy, but not the boolean `true`. -/
def truthyFlagEvent : Event :=
  { id := 1010, productId := "GARLIC_BATCH_004", eventType := "TRANSPORT",
    details := some { violationDetected := some (Jval.jnum 1) } }

/-- Payment details with a spoilage rate exceeding 1 (used to exercise the
no-clamping claim). -/
def overDetails : Details :=
  { qualityVerified := true, deliveryConfirmed := true, quantityKg := 10,
    agreedPricePerKg := 5, spoilageRate := some 2 }

/-- A payment request carrying those details for the flagged product. -/
def overTx : Event :=
  { id := 1009, productId := "TOMATO_BATCH_001", eventType := "PAYMENT_REQUEST",
    details := some overDetails }

-- Helper lemmas shared by several claims.

lemma violationFlagIsTrue_iff (e : Event) :
    violationFlagIsTrue e = true ↔
      ∃ d, e.details = some d ∧ d.violationDetected = some (Jval.jbool true) := by
  cases h : e.details <;> simp [violationFlagIsTrue, h]

lemma violationFlagTruthy_iff (e : Event) :
    violationFlagTruthy e = true ↔
      ∃ d v, e.details = some d ∧ d.violationDetected = some v ∧ truthy v = true := by
  cases h : e.details with
  | none => simp [violationFlagTruthy, h]
  | some d => cases hv : d.violationDetected <;> simp [violationFlagTruthy, h, hv]

/-- C5: the Conditions Evaluator fires the temperature check iff the
temperature is strictly outside the closed range, same for humidity, runs
both checks independently, reports status Conditions Met iff neither
fires, and lists the temperature message (when fired) before the humidity
message (when fired). -/
theorem verifyFoodConditions_checks (d : Details) :
    ((verifyFoodConditionsPure d).status = "Conditions Met" ↔
      ¬(d.currentTempCelsius < d.thresholds.minTemp ∨
          d.currentTempCelsius > d.thresholds.maxTemp) ∧
      ¬(d.currentHumidityPercent < d.thresholds.minHumidity ∨
          d.currentHumidityPercent > d.thresholds.maxHumidity)) ∧
    ((verifyFoodConditionsPure d).status = "Condition Violation" ↔
      ((d.currentTempCelsius < d.thresholds.minTemp ∨
          d.currentTempCelsius > d.thresholds.maxTemp) ∨
        (d.currentHumidityPercent < d.thresholds.minHumidity ∨
          d.currentHumidityPercent > d.thresholds.maxHumidity))) ∧
    (verifyFoodConditionsPure d).violations =
      (if d.currentTempCelsius < d.thresholds.minTemp ∨
          d.currentTempCelsius > d.thresholds.maxTemp then [tempMsg d] else []) ++
      (if d.currentHumidityPercent < d.thresholds.minHumidity ∨
          d.currentHumidityPercent > d.thresholds.maxHumidity then [humMsg d] else []) := by
  by_cases h1 : d.currentTempCelsius < d.thresholds.minTemp ∨
      d.currentTempCelsius > d.thresholds.maxTemp <;>
    by_cases h2 : d.currentHumidityPercent < d.thresholds.minHumidity ∨
        d.currentHumidityPercent > d.thresholds.maxHumidity <;>
      simp [verifyFoodConditionsPure, h1, h2]

/-- C9: the Pricing Evaluator never modifies the ledger: the event
sequence, every stored event (hence every violationDetected flag) and the
next-id counter are unchanged by the call. -/
theorem processFairPricing_readOnly (st : ChainState) (tx : Event) :
    (processFairPricing st tx).2 = st ∧
    (processFairPricing st tx).2.simulatedBlockchain = st.simulatedBlockchain ∧
    (processFairPricing st tx).2.nextTransactionId = st.nextTransactionId := by
  rcases htx : tx.details with _ | d <;> simp [processFairPricing, htx]

/-- C8: for a PAYMENT_REQUEST event with boolean flags the Pricing
Evaluator never returns status Pending: the final else branch is dead. -/
theorem processFairPricing_no_pending (st : ChainState) (tx : Event) (d : Details)
    (hd : tx.details = some d) :
    (processFairPricing st tx).1.status ≠ "Pending" := by
  cases hq : d.qualityVerified <;> cases hc : d.deliveryConfirmed <;>
    simp [processFairPricing, hd, hq, hc]

/-- C8 witness: concrete PAYMENT_REQUEST evaluation is not Pending. -/
theorem processFairPricing_no_pending_witness :
    (processFairPricing stNoViolation payTx).1.status ≠ "Pending" :=
  processFairPricing_no_pending stNoViolation payTx payDetails rfl

/-- C3: the Pricing Evaluator decides in exact precedence: both flags true
releases (quantity minus spoilage) times price; otherwise quality not
verified yields Quality Pending (regardless of delivery, in particular
when both flags are false); otherwise delivery not confirmed yields
Delivery Pending. -/
theorem processFairPricing_precedence (st : ChainState) (tx : Event) (d : Details)
    (hd : tx.details = some d) :
    (d.qualityVerified = true ∧ d.deliveryConfirmed = true →
      (processFairPricing st tx).1 =
        { status := "Payment Released",
          amount := (d.quantityKg - spoilage st.simulatedBlockchain tx.productId d) *
            d.agreedPricePerKg }) ∧
    (d.qualityVerified = false →
      (processFairPricing st tx).1 = { status := "Quality Pending", amount := 0 }) ∧
    (d.qualityVerified = true ∧ d.deliveryConfirmed = false →
      (processFairPricing st tx).1 = { status := "Delivery Pending", amount := 0 }) := by
  refine ⟨fun h => ?_, fun h => ?_, fun h => ?_⟩
  · simp [processFairPricing, hd, h.1, h.2]
  · simp [processFairPricing, hd, h]
  · simp [processFairPricing, hd, h.1, h.2]

/-- C3 witness: the spec's own worked example — one prior flagged
violation, 500 kg at 350 per kg and spoilage rate 0.15 release exactly
148750. -/
theorem processFairPricing_precedence_witness :
    (processFairPricing stWithViolation payTx).1 =
      { status := "Payment Released", amount := 148750 } := by
  have h := (processFairPricing_precedence stWithViolation payTx payDetails rfl).1
    ⟨rfl, rfl⟩
  rw [h]
  have hlen : 0 < (findByProductWithViolation stWithViolation.simulatedBlockchain
      payTx.productId).length := by decide
  rw [spoilage, if_pos hlen]
  simp only [payDetails, payTx]
  norm_num

/-- C4: spoilage is spoilageRate times quantity when the violation lookup
for the product is non-empty and 0 when it is empty, with rate 0.15 when
the event carries no spoilageRate; the two booleans do not affect the
spoilage computation; with zero prior flagged violations and both flags
true the released amount is exactly quantity times price. -/
theorem spoilage_gating (st : ChainState) (tx : Event) (d : Details)
    (hd : tx.details = some d) :
    (findByProductWithViolation st.simulatedBlockchain tx.productId = [] →
      spoilage st.simulatedBlockchain tx.productId d = 0) ∧
    (findByProductWithViolation st.simulatedBlockchain tx.productId ≠ [] →
      spoilage st.simulatedBlockchain tx.productId d =
        d.spoilageRate.getD (0.15 : ℚ) * d.quantityKg) ∧
    (d.spoilageRate = none → d.spoilageRate.getD (0.15 : ℚ) = (0.15 : ℚ)) ∧
    (∀ b1 b2 : Bool,
      spoilage st.simulatedBlockchain tx.productId
          { d with qualityVerified := b1, deliveryConfirmed := b2 } =
        spoilage st.simulatedBlockchain tx.productId d) ∧
    (findByProductWithViolation st.simulatedBlockchain tx.productId = [] →
      d.qualityVerified = true → d.deliveryConfirmed = true →
      (processFairPricing st tx).1 =
        { status := "Payment Released", amount := d.quantityKg * d.agreedPricePerKg }) := by
  refine ⟨fun h => ?_, fun h => ?_, fun h => ?_, fun b1 b2 => rfl, fun h hq hc => ?_⟩
  · simp [spoilage, h]
  · rw [spoilage, if_pos (List.length_pos.mpr h)]
  · rw [h]; rfl
  · have hsp : spoilage st.simulatedBlockchain tx.productId d = 0 := by simp [spoilage, h]
    simp [processFairPricing, hd, hq, hc, hsp]

/-- C4 witness: with an empty ledger (zero prior flagged violations) the
500 kg payment request at price 350 releases exactly 175000. -/
theorem spoilage_gating_witness :
    (processFairPricing stNoViolation payTx).1 =
      { status := "Payment Released", amount := 175000 } := by
  have h := (spoilage_gating stNoViolation payTx payDetails rfl).2.2.2.2
    (by decide) rfl rfl
  rw [h]
  simp only [payDetails]
  norm_num

/-- C7: with both flags true, a prior flagged violation and an explicit
spoilageRate r, the released amount is (quantityKg - r * quantityKg) *
agreedPricePerKg as computed; when r exceeds 1 and quantity and price are
positive the amount is negative, not clamped to 0 or rejected. -/
theorem processFairPricing_no_clamp (st : ChainState) (tx : Event) (d : Details) (r : ℚ)
    (hd : tx.details = some d) (hr : d.spoilageRate = some r)
    (hq : d.qualityVerified = true) (hc : d.deliveryConfirmed = true)
    (hv : findByProductWithViolation st.simulatedBlockchain tx.productId ≠ []) :
    (processFairPricing st tx).1.status = "Payment Released" ∧
    (processFairPricing st tx).1.amount =
      (d.quantityKg - r * d.quantityKg) * d.agreedPricePerKg ∧
    (1 < r → 0 < d.quantityKg → 0 < d.agreedPricePerKg →
      (processFairPricing st tx).1.amount < 0) := by
  have hsp : spoilage st.simulatedBlockchain tx.productId d = r * d.quantityKg := by
    rw [spoilage, if_pos (List.length_pos.mpr hv), hr]
    rfl
  have hamt : (processFairPricing st tx).1.amount =
      (d.quantityKg - r * d.quantityKg) * d.agreedPricePerKg := by
    simp [processFairPricing, hd, hq, hc, hsp]
  refine ⟨?_, hamt, fun h1 h2 h3 => ?_⟩
  · simp [processFairPricing, hd, hq, hc]
  · have hneg : d.quantityKg - r * d.quantityKg < 0 := by nlinarith
    rw [hamt]
    exact mul_neg_of_neg_of_pos hneg h3

/-- C7 witness: rate 2 with one prior flagged violation, 10 kg at price 5:
the returned amount is (10 - 2*10)*5 = -50, which is negative. -/
theorem processFairPricing_no_clamp_witness :
    (processFairPricing stWithViolation overTx).1.amount < 0 := by
  have h := processFairPricing_no_clamp stWithViolation overTx overDetails 2
    rfl rfl rfl rfl (by decide)
  exact h.2.2 (by norm_num) (by norm_num [overDetails]) (by norm_num [overDetails])

/-- C10: with non-negative quantity and price and an effective spoilage
rate (explicit or the 0.15 default) between 0 and 1, the returned amount
is non-negative in every branch. -/
theorem processFairPricing_nonneg (st : ChainState) (tx : Event) (d : Details)
    (hd : tx.details = some d) (hq : 0 ≤ d.quantityKg) (hp : 0 ≤ d.agreedPricePerKg)
    (h0 : 0 ≤ d.spoilageRate.getD (0.15 : ℚ)) (h1 : d.spoilageRate.getD (0.15 : ℚ) ≤ 1) :
    0 ≤ (processFairPricing st tx).1.amount := by
  cases hqv : d.qualityVerified <;> cases hdc : d.deliveryConfirmed <;>
    simp [processFairPricing, hd, hqv, hdc]
  rw [spoilage]
  split
  · nlinarith [mul_nonneg (mul_nonneg hq (sub_nonneg.mpr h1)) hp, h0]
  · nlinarith [mul_nonneg hq hp]

/-- C10 witness: the sample payment request with default-range rate 0.15
returns a non-negative amount. -/
theorem processFairPricing_nonneg_witness :
    0 ≤ (processFairPricing stWithViolation payTx).1.amount :=
  processFairPricing_nonneg stWithViolation payTx payDetails rfl
    (by norm_num [payDetails]) (by norm_num [payDetails])
    (by norm_num [payDetails]) (by norm_num [payDetails])

lemma appendAll_ids (l : List (TransactionData × String)) :
    ∀ st : ChainState, (appendAll st l).2 = List.range' st.nextTransactionId l.length := by
  induction l with
  | nil => intro st; rfl
  | cons p rest ih =>
    intro st
    simp [appendAll, addTransaction, ih, List.range']

/-- C6: starting from the initial state, any sequence of N appends returns
the consecutive ids 1001, 1002, ..., 1000+N; each append stores exactly
one event at the tail with that id, leaving the stored prefix unchanged;
and neither evaluator deletes or reorders events (the Conditions
Evaluator preserves the id sequence, the Pricing Evaluator the whole
state). -/
theorem ledger_append_only :
    (∀ l : List (TransactionData × String),
      (appendAll initialState l).2 = List.range' 1001 l.length) ∧
    (∀ (st : ChainState) (dta : TransactionData) (ts : String),
      (addTransaction st dta ts).1.id = st.nextTransactionId ∧
      (addTransaction st dta ts).2.nextTransactionId = st.nextTransactionId + 1 ∧
      (addTransaction st dta ts).2.simulatedBlockchain =
        st.simulatedBlockchain ++ [(addTransaction st dta ts).1]) ∧
    (∀ (st : ChainState) (tx : Event),
      (verifyFoodConditions st tx).2.simulatedBlockchain.map Event.id =
        st.simulatedBlockchain.map Event.id) ∧
    (∀ (st : ChainState) (tx : Event), (processFairPricing st tx).2 = st) := by
  refine ⟨fun l => appendAll_ids l initialState, fun st dta ts => ⟨rfl, rfl, rfl⟩,
    fun st tx => ?_, fun st tx => ?_⟩
  · rcases htx : tx.details with _ | d
    · simp [verifyFoodConditions, htx]
    · simp only [verifyFoodConditions, htx, markViolation, List.map_map]
      congr 1
      funext e
      by_cases he : e.id = tx.id <;> simp [he]
  · rcases htx : tx.details with _ | d <;> simp [processFairPricing, htx]

/-- C2 counterexample: the part_000 copy of the Pricing Evaluator filters
the ledger with a truthy check, so an event whose violationDetected is the
number 1 — present, truthy, but not the boolean true — is returned by its
lookup, while the strict lookup of indexu.js excludes it. -/
theorem findByProductWithViolationP0_truthy_cex :
    truthyFlagEvent ∈
      findByProductWithViolationP0 [truthyFlagEvent] "GARLIC_BATCH_004" ∧
    Jval.jnum 1 ≠ Jval.jbool true ∧
    truthyFlagEvent ∉
      findByProductWithViolation [truthyFlagEvent] "GARLIC_BATCH_004" := by decide

/-- C2 (amended): the lookup of indexu.js and part_001 returns, in append
order (a sublist of the ledger), exactly the stored events whose productId
matches and whose violationDetected is strictly the boolean true — flag
absent or truthy-non-true excluded; the part_000 copy instead returns
exactly the matching events whose flag is present and truthy. -/
theorem findByProductWithViolation_spec (chain : List Event) (pid : String) :
    (findByProductWithViolation chain pid).Sublist chain ∧
    (findByProductWithViolationP0 chain pid).Sublist chain ∧
    (∀ e, e ∈ findByProductWithViolation chain pid ↔
      e ∈ chain ∧ e.productId = pid ∧
        ∃ d, e.details = some d ∧ d.violationDetected = some (Jval.jbool true)) ∧
    (∀ e, e ∈ findByProductWithViolationP0 chain pid ↔
      e ∈ chain ∧ e.productId = pid ∧
        ∃ d v, e.details = some d ∧ d.violationDetected = some v ∧ truthy v = true) := by
  refine ⟨List.filter_sublist _, List.filter_sublist _, fun e => ?_, fun e => ?_⟩
  · rw [findByProductWithViolation, List.mem_filter]
    simp [violationFlagIsTrue_iff, and_assoc]
  · rw [findByProductWithViolationP0, List.mem_filter]
    simp [violationFlagTruthy_iff, and_assoc]

lemma mem_markViolation_of_ne {chain : List Event} {e : Event} (he : e ∈ chain)
    {txId : ℕ} (hne : e.id ≠ txId) (b : Bool) : e ∈ markViolation chain txId b := by
  rw [markViolation]
  have heq : (if e.id = txId then
      { e with details := e.details.map fun dd =>
          { dd with violationDetected := some (Jval.jbool b) } }
    else e) = e := if_neg hne
  rw [← heq]
  exact List.mem_map_of_mem _ he

lemma withFlag_mem_markViolation {chain : List Event} {tx : Event} {d : Details}
    (hmem : tx ∈ chain) (hd : tx.details = some d) (b : Bool) :
    withFlag tx d b ∈ markViolation chain tx.id b := by
  rw [markViolation]
  refine List.mem_map.mpr ⟨tx, hmem, ?_⟩
  rw [if_pos rfl, hd]
  rfl

lemma reachAvoiding_mem_preserved {i : ℕ} {s t : ChainState} (h : ReachAvoiding i s t)
    {e : Event} (he : e ∈ s.simulatedBlockchain) (hid : e.id = i) :
    e ∈ t.simulatedBlockchain := by
  induction h with
  | refl => exact he
  | append t' dta ts _ ih => exact List.mem_append_left _ ih
  | evalCond t' tx hne _ ih =>
    rcases htx : tx.details with _ | dd
    · simpa [verifyFoodConditions, htx] using ih
    · simp only [verifyFoodConditions, htx]
      exact mem_markViolation_of_ne ih (fun hh => hne (hh.symm.trans hid)) _

/-- C1 (amended): in the indexu.js copy (and the equivalent part_001
copy), after verifyFoodConditions runs on a stored condition-bearing
event, the event carries violationDetected = (violations non-empty), and
every later findByProductWithViolation query for its productId — after
any appends and evaluations of other events, with no re-evaluation of
this one — includes the updated event iff the violations list was
non-empty.  In the part_000 copy verifyFoodConditions computes the same
result but never writes the flag and leaves the ledger unchanged. -/
theorem verifyFoodConditions_persistence (st : ChainState) (tx : Event) (d : Details)
    (hmem : tx ∈ st.simulatedBlockchain) (hd : tx.details = some d) :
    ((verifyFoodConditions st tx).1 = verifyFoodConditionsPure d) ∧
    (violationFlag (verifyFoodConditionsPure d) = true ↔
      (verifyFoodConditionsPure d).violations ≠ []) ∧
    (verifyFoodConditionsP1 st tx = verifyFoodConditions st tx) ∧
    (withFlag tx d (violationFlag (verifyFoodConditionsPure d)) ∈
      (verifyFoodConditions st tx).2.simulatedBlockchain) ∧
    (∀ st', ReachAvoiding tx.id (verifyFoodConditions st tx).2 st' →
      (withFlag tx d (violationFlag (verifyFoodConditionsPure d)) ∈
          findByProductWithViolation st'.simulatedBlockchain tx.productId ↔
        (verifyFoodConditionsPure d).violations ≠ [])) ∧
    ((verifyFoodConditionsP0 st tx).1 = verifyFoodConditionsPure d ∧
      (verifyFoodConditionsP0 st tx).2 = st) := by
  have hflag : violationFlag (verifyFoodConditionsPure d) = true ↔
      (verifyFoodConditionsPure d).violations ≠ [] := by
    simp [violationFlag, List.length_pos]
  have hmem1 : withFlag tx d (violationFlag (verifyFoodConditionsPure d)) ∈
      (verifyFoodConditions st tx).2.simulatedBlockchain := by
    simp only [verifyFoodConditions, hd]
    exact withFlag_mem_markViolation hmem hd _
  refine ⟨by simp [verifyFoodConditions, hd], hflag, ?_, hmem1, ?_,
    by simp [verifyFoodConditionsP0, hd], by simp [verifyFoodConditionsP0, hd]⟩
  · by_cases hl : 0 < (verifyFoodConditionsPure d).violations.length
    · have hb : violationFlag (verifyFoodConditionsPure d) = true := decide_eq_true hl
      simp [verifyFoodConditionsP1, verifyFoodConditions, hd, hl, hb]
    · have hb : violationFlag (verifyFoodConditionsPure d) = false := by
        simp [violationFlag, hl]
      simp [verifyFoodConditionsP1, verifyFoodConditions, hd, hl, hb]
  · intro st' hreach
    have hmem' : withFlag tx d (violationFlag (verifyFoodConditionsPure d)) ∈
        st'.simulatedBlockchain :=
      reachAvoiding_mem_preserved hreach hmem1 rfl
    constructor
    · intro hin
      have hp := (List.mem_filter.mp hin).2
      have hb : violationFlag (verifyFoodConditionsPure d) = true := by
        simpa [withFlag, violationFlagIsTrue] using hp
      exact hflag.mp hb
    · intro hv
      have hb : violationFlag (verifyFoodConditionsPure d) = true := hflag.mpr hv
      refine List.mem_filter.mpr ⟨hmem', ?_⟩
      simp [withFlag, violationFlagIsTrue, hb]

/-- C1 witness: the temperature-violating TOMATO_BATCH_001 transport in a
one-event ledger; after evaluation the flagged event is found by the
strict lookup for its product. -/
theorem verifyFoodConditions_persistence_witness :
    withFlag sampleCondTx sampleCondDetails
        (violationFlag (verifyFoodConditionsPure sampleCondDetails)) ∈
      findByProductWithViolation
        (verifyFoodConditions sampleSt sampleCondTx).2.simulatedBlockchain
        sampleCondTx.productId := by
  have h := verifyFoodConditions_persistence sampleSt sampleCondTx sampleCondDetails
    (by decide) rfl
  exact (h.2.2.2.2.1 _ (ReachAvoiding.refl _)).mpr (by decide)

/-- C1 counterexample: running the part_000 copy of verifyFoodConditions
on a stored event with a temperature violation returns a non-empty
violations list, yet leaves the ledger (hence the event's absent
violationDetected field) unchanged, and both lookups for the product still
return nothing afterwards. -/
theorem verifyFoodConditionsP0_no_write_cex :
    (verifyFoodConditionsP0 sampleSt sampleCondTx).1.violations ≠ [] ∧
    (verifyFoodConditionsP0 sampleSt sampleCondTx).2 = sampleSt ∧
    sampleCondTx.details = some sampleCondDetails ∧
    sampleCondDetails.violationDetected = none ∧
    findByProductWithViolationP0
      (verifyFoodConditionsP0 sampleSt sampleCondTx).2.simulatedBlockchain
      sampleCondTx.productId = [] ∧
    findByProductWithViolation
      (verifyFoodConditionsP0 sampleSt sampleCondTx).2.simulatedBlockchain
      sampleCondTx.productId = [] := by decide
